import Mathlib

/-!
# ddns-updater: provider identifiers and the DD24 settings implementation

A shallow embedding of `internal/constants/providers.go` and
`internal/settings/dd24.go`.

* Go `string` values are Lean `String`s, read as their sequence of runes.
* A Go `(value, error)` result is a pair whose second component is
  `Option Error`, `none` standing for a `nil` error.
* The outcome of the single HTTP round trip is an input of the model
  (`RoundTrip`): the code only shapes the request and interprets the answer.
* Functions of the Go standard library and of other files of the
  repository that the two files call are gathered in `Deps`.
-/

set_option autoImplicit false
set_option linter.dupNamespace false

namespace models

/-- Go `type Provider string`. -/
abbrev Provider := String

/-- Go `type IPVersion string`. -/
abbrev IPVersion := String

end models

namespace constants

open models

def CLOUDFLARE : Provider := "cloudflare"
def DIGITALOCEAN : Provider := "digitalocean"
def DDNSSDE : Provider := "ddnss"
def DONDOMINIO : Provider := "dondominio"
def DNSOMATIC : Provider := "dnsomatic"
def DNSPOD : Provider := "dnspod"
def DUCKDNS : Provider := "duckdns"
def DYN : Provider := "dyn"
def DYNV6 : Provider := "dynv6"
def DREAMHOST : Provider := "dreamhost"
def FREEDNS : Provider := "freedns"
def GANDI : Provider := "gandi"
def GODADDY : Provider := "godaddy"
def GOOGLE : Provider := "google"
def HE : Provider := "he"
def INFOMANIAK : Provider := "infomaniak"
def LINODE : Provider := "linode"
def LUADNS : Provider := "luadns"
def NAMECHEAP : Provider := "namecheap"
def NJALLA : Provider := "njalla"
def NOIP : Provider := "noip"
def OPENDNS : Provider := "opendns"
def OVH : Provider := "ovh"
def SELFHOSTDE : Provider := "selfhost.de"
def SPDYN : Provider := "spdyn"
def STRATO : Provider := "strato"

/-- The const block of `providers.go` as a table: every declared identifier
with its value, in declaration order. -/
def declared : List (String × Provider) :=
  [ ("CLOUDFLARE", CLOUDFLARE),
    ("DIGITALOCEAN", DIGITALOCEAN),
    ("DDNSSDE", DDNSSDE),
    ("DONDOMINIO", DONDOMINIO),
    ("DNSOMATIC", DNSOMATIC),
    ("DNSPOD", DNSPOD),
    ("DUCKDNS", DUCKDNS),
    ("DYN", DYN),
    ("DYNV6", DYNV6),
    ("DREAMHOST", DREAMHOST),
    ("FREEDNS", FREEDNS),
    ("GANDI", GANDI),
    ("GODADDY", GODADDY),
    ("GOOGLE", GOOGLE),
    ("HE", HE),
    ("INFOMANIAK", INFOMANIAK),
    ("LINODE", LINODE),
    ("LUADNS", LUADNS),
    ("NAMECHEAP", NAMECHEAP),
    ("NJALLA", NJALLA),
    ("NOIP", NOIP),
    ("OPENDNS", OPENDNS),
    ("OVH", OVH),
    ("SELFHOSTDE", SELFHOSTDE),
    ("SPDYN", SPDYN),
    ("STRATO", STRATO) ]

/-- Resolution of a qualified identifier `constants.<name>` against the
const block: `none` when the block declares no such constant. -/
def resolve (name : String) : Option Provider :=
  (declared.find? (fun entry => entry.1 == name)).map (fun entry => entry.2)

def ProviderChoices : List Provider :=
  [ CLOUDFLARE,
    DIGITALOCEAN,
    DDNSSDE,
    DONDOMINIO,
    DNSOMATIC,
    DNSPOD,
    DUCKDNS,
    DYN,
    DYNV6,
    DREAMHOST,
    FREEDNS,
    GANDI,
    GODADDY,
    GOOGLE,
    HE,
    INFOMANIAK,
    LINODE,
    LUADNS,
    NAMECHEAP,
    NJALLA,
    NOIP,
    OVH,
    OPENDNS,
    SELFHOSTDE,
    SPDYN,
    STRATO ]

/-- An ASCII capital letter. -/
def isUpperRune (c : Char) : Bool := decide (65 ≤ c.toNat ∧ c.toNat ≤ 90)

/-- A lowercase token: none of its runes is a capital letter. -/
def isLowercase (s : String) : Bool := s.data.all (fun c => !isUpperRune c)

end constants

/-! ## Standard-library values used by `dd24.go` -/

namespace net

/-- Go `net.IP`, a byte slice; `none` is the `nil` slice. -/
abbrev IP := Option (List (Fin 256))

end net

namespace url

/-- Go `url.Values` (`map[string][]string`) as an association list with at
most one entry per key. -/
abbrev Values := List (String × List String)

/-- Go `Values.Set`: the key is bound to the single value given, replacing
whatever was bound to it before. -/
def Values.Set (v : Values) (key value : String) : Values :=
  (key, [value]) :: v.filter (fun entry => entry.1 != key)

/-- Go `Values.Get`: the first value bound to the key, or `""`. -/
def Values.Get (v : Values) (key : String) : String :=
  match v.find? (fun entry => entry.1 == key) with
  | some (_, value :: _) => value
  | _ => ""

/-- Go `url.URL`, the fields `dd24.Update` fills in. `RawQuery` holds the
values whose `Encode()` is the raw query string. -/
structure URL where
  Scheme : String
  Host : String
  Path : String
  RawQuery : Values
  deriving DecidableEq, Repr

end url

namespace http

/-- Go `http.MethodGet`. -/
def MethodGet : String := "GET"

/-- Go `http.StatusOK`. -/
def StatusOK : Int := 200

/-- The request handed to `client.Do`: method, target and header fields
(no body: `dd24.Update` passes `nil`). -/
structure Request where
  Method : String
  URL : url.URL
  Header : List (String × String)
  deriving DecidableEq, Repr

/-- What comes back for the one request `Update` makes; each constructor is
one of the points at which the Go code looks at an error or at the
response. -/
inductive RoundTrip where
  /-- The call of `http.NewRequestWithContext` returned this error. -/
  | newRequestFailed (err : String)
  /-- The call of `client.Do` returned this error. -/
  | doFailed (err : String)
  /-- A response arrived, and `io.ReadAll` on its body returned this error. -/
  | readFailed (StatusCode : Int) (err : String)
  /-- A response arrived and its body was read in full. -/
  | response (StatusCode : Int) (body : String)
  deriving DecidableEq, Repr

end http

namespace unicode

/-- Go `unicode.MaxASCII`. -/
def MaxASCII : Nat := 127

/-- Go `unicode.ToLower`: an ASCII rune is handled on the spot, any other
rune goes through the Unicode case tables, the argument `table`. -/
def ToLower (table : Char → Char) (r : Char) : Char :=
  if r.toNat ≤ MaxASCII then
    if 65 ≤ r.toNat ∧ r.toNat ≤ 90 then Char.ofNat (r.toNat + 32) else r
  else
    table r

end unicode

namespace strings

/-- Whether `sub` occurs in `s` as a contiguous run. -/
def containsRunes : List Char → List Char → Bool
  | [], sub => sub.isEmpty
  | c :: cs, sub => sub.isPrefixOf (c :: cs) || containsRunes cs sub

/-- Go `strings.Contains`. -/
def Contains (s substr : String) : Bool := containsRunes s.data substr.data

/-- Go `strings.ToLower`: every rune through `unicode.ToLower`. -/
def ToLower (table : Char → Char) (s : String) : String :=
  ⟨s.data.map (unicode.ToLower table)⟩

end strings

namespace settings

open models

/-- The package-level error values of package `settings` that `dd24.go`
names. -/
inductive Sentinel where
  | ErrEmptyPassword
  | ErrUnmarshalResponse
  | ErrBadHTTPStatus
  | ErrAuth
  | ErrUnknownResponse
  deriving DecidableEq, Repr

/-- A Go `error` value as `dd24.go` produces it. -/
inductive Error where
  /-- One of the package-level error values, returned as is. -/
  | sentinel (e : Sentinel)
  /-- The value built by `fmt.Errorf` with a format `"%w: ..."`: it wraps
  `e`, and `rest` is the text the format puts after the first `": "`. -/
  | wrapped (e : Sentinel) (rest : String)
  /-- An error of the standard library passed on unchanged, by its text. -/
  | foreign (text : String)
  deriving DecidableEq, Repr

/-- Go `errors.Is(err, target)` for a package-level `target`. -/
def Error.Is : Error → Sentinel → Bool
  | .sentinel e, target => e == target
  | .wrapped e _, target => e == target
  | .foreign _, _ => false

/-- What the two files take from outside themselves. -/
structure Deps where
  /-- The Unicode case tables behind `unicode.ToLower` (Go
  `unicode.To(unicode.LowerCase, r)`). -/
  lowerCase : Char → Char
  /-- Go `net.IP.String`. -/
  ipString : net.IP → String
  /-- The value `setUserAgent` gives the `User-Agent` header. -/
  userAgent : String
  /-- The text (`Error()`) of each package-level error value. -/
  errText : Sentinel → String
  /-- The helper `toString` of package `settings`: domain, host, provider
  and IP version to the display text of a settings value. -/
  toString : String → String → Provider → IPVersion → String

/-- Go `Error()`: the text of an error. -/
def Error.Error (env : Deps) : Error → String
  | .sentinel e => env.errText e
  | .wrapped e rest => env.errText e ++ ": " ++ rest
  | .foreign text => text

/-- Go `fmt.Sprintf("%d", n)`. -/
def formatInt : Int → String
  | Int.ofNat n => Nat.repr n
  | Int.negSucc n => "-" ++ Nat.repr (n + 1)

/-- Modelled from the spec: `buildDomainName`, of another file of package
`settings`: "if host is the wildcard/root marker, equals domain; otherwise
equals host + "." + domain", the root marker being `"@"`. -/
def buildDomainName (host domain : String) : String :=
  if host = "@" then domain else host ++ "." ++ domain

/-- Modelled from the spec: `bodyDataToSingleLine`, of another file of
package `settings`: the body "limited to a single line (strip/replace
embedded newlines)": line feeds and carriage returns are dropped. -/
def bodyDataToSingleLine (body : String) : String :=
  ⟨body.data.filter (fun c => c != Char.ofNat 10 && c != Char.ofNat 13)⟩

/-- Modelled from the spec: `setUserAgent`, of another file of package
`settings`: it sets the identifying client signature, the `User-Agent`
header, and no other header. -/
def setUserAgent (env : Deps) (request : http.Request) : http.Request :=
  { request with
    Header := ("User-Agent", env.userAgent) ::
      request.Header.filter (fun entry => entry.1 != "User-Agent") }

/-- The configuration payload as `json.Unmarshal` sees it. -/
inductive RawMessage where
  /-- Not a JSON object that decodes into the two fields; `json.Unmarshal`
  returns this error. -/
  | malformed (err : String)
  /-- A JSON object; each of the two fields is present with a value or
  absent. -/
  | object (password : Option String) (provider_ip : Option Bool)
  deriving DecidableEq, Repr

/-- The anonymous struct `extraSettings` of `NewDD24`. -/
structure ExtraSettings where
  Password : String
  UseProviderIP : Bool
  deriving DecidableEq, Repr

/-- Go `json.Unmarshal(data, &extraSettings)` on the zero-valued struct: an
absent field keeps its zero value. -/
def jsonUnmarshal : RawMessage → Except String ExtraSettings
  | .malformed err => .error err
  | .object password provider_ip =>
      .ok { Password := password.getD "", UseProviderIP := provider_ip.getD false }

structure dd24 where
  domain : String
  host : String
  ipVersion : IPVersion
  password : String
  useProviderIP : Bool
  deriving DecidableEq, Repr

/-- Go `len(s)` of a string: its length in bytes. -/
def len (s : String) : Nat := s.utf8ByteSize

def dd24.isValid (d : dd24) : Option Error :=
  if len d.password == 0 then
    some (.sentinel .ErrEmptyPassword)
  else
    none

/-- The `regex.Matcher` argument, which `NewDD24` ignores. -/
abbrev Matcher := Unit

def NewDD24 (data : RawMessage) (domain host : String) (ipVersion : IPVersion)
    (_ : Matcher) : Option dd24 × Option Error :=
  match jsonUnmarshal data with
  | .error err => (none, some (.foreign err))
  | .ok extraSettings =>
      let d : dd24 :=
        { domain := domain
          host := host
          ipVersion := ipVersion
          password := extraSettings.Password
          useProviderIP := extraSettings.UseProviderIP }
      match d.isValid with
      | some err => (none, some err)
      | none => (some d, none)

def dd24.Domain (d : dd24) : String := d.domain

def dd24.Host (d : dd24) : String := d.host

def dd24.IPVersion (d : dd24) : IPVersion := d.ipVersion

def dd24.Proxied (_ : dd24) : Bool := false

def dd24.BuildDomainName (d : dd24) : String := buildDomainName d.host d.domain

/-- The identifier `dd24.String` passes to `toString` as the provider:
`constants.DD24`. -/
def dd24.providerConstant : String := "DD24"

def dd24.setHeaders (env : Deps) (_ : dd24) (request : http.Request) : http.Request :=
  setUserAgent env request

/-- The request `dd24.Update` builds (the lines up to `client.Do`). -/
def dd24.buildRequest (env : Deps) (d : dd24) (ip : net.IP) : http.Request :=
  let u : url.URL :=
    { Scheme := "https"
      Host := "dynamicdns.key-systems.net"
      Path := "/update.php"
      RawQuery := [] }
  let values : url.Values := []
  let values := values.Set "hostname" d.BuildDomainName
  let values := values.Set "password" d.password
  let values :=
    if d.useProviderIP then
      values.Set "hostname" "auto"
    else
      values.Set "hostname" (env.ipString ip)
  let u := { u with RawQuery := values }
  d.setHeaders env { Method := http.MethodGet, URL := u, Header := [] }

/-- The interpretation of the answer by `dd24.Update` (the lines after
`io.ReadAll`): status code and body to the pair `(newIP, err)`. -/
def dd24.classify (env : Deps) (ip : net.IP) (StatusCode : Int) (s : String) :
    net.IP × Option Error :=
  if StatusCode != http.StatusOK then
    (none, some (.wrapped .ErrBadHTTPStatus
      (formatInt StatusCode ++ ": " ++ bodyDataToSingleLine s)))
  else
    let s := strings.ToLower env.lowerCase s
    if strings.Contains s "authorization failed" then
      (none, some (.sentinel .ErrAuth))
    else if s == "" then
      (ip, none)
    else
      (none, some (.wrapped .ErrUnknownResponse s))

/-- Go `dd24.Update`: `client` answers the one request built; the result is
the pair `(newIP, err)`. -/
def dd24.Update (env : Deps) (d : dd24) (client : http.Request → http.RoundTrip)
    (ip : net.IP) : net.IP × Option Error :=
  match client (d.buildRequest env ip) with
  | .newRequestFailed err => (none, some (.foreign err))
  | .doFailed err => (none, some (.foreign err))
  | .readFailed _ err => (none, some (.wrapped .ErrUnmarshalResponse err))
  | .response StatusCode body => dd24.classify env ip StatusCode body

/-- Go `dd24.String`: `toString` applied to the domain, the host, the
provider `constants.DD24` and the IP version; `none` when the const block
has no constant of that name to pass. -/
def dd24.String (env : Deps) (d : dd24) : Option String :=
  (constants.resolve dd24.providerConstant).map
    (fun provider => env.toString d.domain d.host provider d.ipVersion)

/-- Dependencies for evaluating the model on examples: no case change
outside ASCII, dotted-decimal text for a four-byte address, and each
package-level error named by its identifier. -/
def exampleDeps : Deps where
  lowerCase := fun r => r
  ipString := fun ip =>
    match ip with
    | some [a, b, c, d] =>
        Nat.repr a.val ++ "." ++ Nat.repr b.val ++ "." ++ Nat.repr c.val ++ "." ++ Nat.repr d.val
    | _ => "<nil>"
  userAgent := "ddns-updater"
  errText := fun e =>
    match e with
    | .ErrEmptyPassword => "ErrEmptyPassword"
    | .ErrUnmarshalResponse => "ErrUnmarshalResponse"
    | .ErrBadHTTPStatus => "ErrBadHTTPStatus"
    | .ErrAuth => "ErrAuth"
    | .ErrUnknownResponse => "ErrUnknownResponse"
  toString := fun domain host provider ipVersion =>
    "[domain: " ++ domain ++ " | host: " ++ host ++ " | provider: " ++ provider ++
      " | ip: " ++ ipVersion ++ "]"

end settings

/-! ## Notions the statements use -/

/-- Whether `w` spells `marker` up to the case of its letters: rune by rune,
`w` has the marker's rune or its capital. -/
def spellsAnyCase : List Char → List Char → Bool
  | [], [] => true
  | m :: ms, c :: cs => (c == m || c == m.toUpper) && spellsAnyCase ms cs
  | _, _ => false

/-- The body contains the marker in some letter case. -/
def containsAnyCase (body marker : String) : Prop :=
  ∃ w : List Char, w <:+: body.data ∧ spellsAnyCase marker.data w = true

/-- The text `t` occurs in the text of the error `e`. -/
def settings.Error.carries (env : settings.Deps) (e : settings.Error) (t : String) : Prop :=
  t.data <:+: (e.Error env).data

/-- A text of one line: no line feed and no carriage return in it. -/
def singleLine (t : String) : Prop :=
  Char.ofNat 10 ∉ t.data ∧ Char.ofNat 13 ∉ t.data

/-! ## Auxiliary facts -/

namespace strings

theorem containsRunes_iff_infix (s sub : List Char) :
    containsRunes s sub = true ↔ sub <:+: s := by
  induction s with
  | nil =>
      cases sub with
      | nil => simp [containsRunes]
      | cons a as => simp [containsRunes]
  | cons c cs ih =>
      rw [containsRunes, Bool.or_eq_true, ih, List.infix_cons_iff,
        List.isPrefixOf_iff_prefix]

theorem Contains_iff (s substr : String) :
    Contains s substr = true ↔ substr.data <:+: s.data :=
  containsRunes_iff_infix s.data substr.data

theorem ToLower_eq_empty (table : Char → Char) (s : String) :
    ToLower table s = "" ↔ s = "" := by
  constructor
  · intro h
    have hd : (ToLower table s).data = [] := by rw [h]
    have hs : s.data = [] := by simpa [ToLower] using hd
    exact String.ext hs
  · intro h
    subst h
    rfl

end strings

namespace settings

theorem classify_bad_status (env : Deps) (ip : net.IP) (StatusCode : Int) (s : String)
    (h : StatusCode ≠ 200) :
    dd24.classify env ip StatusCode s =
      (none, some (.wrapped .ErrBadHTTPStatus
        (formatInt StatusCode ++ ": " ++ bodyDataToSingleLine s))) := by
  simp [dd24.classify, http.StatusOK, h]

theorem classify_auth (env : Deps) (ip : net.IP) (s : String)
    (h : strings.Contains (strings.ToLower env.lowerCase s) "authorization failed" = true) :
    dd24.classify env ip 200 s = (none, some (.sentinel .ErrAuth)) := by
  simp [dd24.classify, http.StatusOK, h]

theorem classify_empty (env : Deps) (ip : net.IP) :
    dd24.classify env ip 200 "" = (ip, none) := by
  rfl

theorem classify_unknown (env : Deps) (ip : net.IP) (s : String)
    (hne : s ≠ "")
    (h : strings.Contains (strings.ToLower env.lowerCase s) "authorization failed" = false) :
    dd24.classify env ip 200 s =
      (none, some (.wrapped .ErrUnknownResponse (strings.ToLower env.lowerCase s))) := by
  have hl : strings.ToLower env.lowerCase s ≠ "" := fun hc =>
    hne ((strings.ToLower_eq_empty env.lowerCase s).1 hc)
  simp [dd24.classify, http.StatusOK, h, hl]

theorem Update_response (env : Deps) (d : dd24) (client : http.Request → http.RoundTrip)
    (ip : net.IP) (StatusCode : Int) (body : String)
    (h : client (d.buildRequest env ip) = .response StatusCode body) :
    d.Update env client ip = dd24.classify env ip StatusCode body := by
  simp [dd24.Update, h]

end settings

namespace unicode

theorem ToLower_ascii (table : Char → Char) (r : Char) (h : r.toNat ≤ 127) :
    ToLower table r = ToLower id r := by
  simp [ToLower, MaxASCII, h]

theorem ToLower_marker :
    ∀ m ∈ "authorization failed".data,
      m.toNat ≤ 127 ∧ m.toUpper.toNat ≤ 127 ∧ ToLower id m = m ∧ ToLower id m.toUpper = m := by
  decide

end unicode

theorem map_ToLower_of_spellsAnyCase (table : Char → Char) :
    ∀ (marker w : List Char),
      (∀ m ∈ marker, m.toNat ≤ 127 ∧ m.toUpper.toNat ≤ 127 ∧
        unicode.ToLower id m = m ∧ unicode.ToLower id m.toUpper = m) →
      spellsAnyCase marker w = true → w.map (unicode.ToLower table) = marker
  | [], [], _, _ => rfl
  | [], _ :: _, _, h => by simp [spellsAnyCase] at h
  | _ :: _, [], _, h => by simp [spellsAnyCase] at h
  | m :: ms, c :: cs, hm, h => by
      simp only [spellsAnyCase, Bool.and_eq_true, Bool.or_eq_true, beq_iff_eq] at h
      obtain ⟨hc, hrest⟩ := h
      have hms : ∀ x ∈ ms, x.toNat ≤ 127 ∧ x.toUpper.toNat ≤ 127 ∧
          unicode.ToLower id x = x ∧ unicode.ToLower id x.toUpper = x :=
        fun x hx => hm x (List.mem_cons_of_mem m hx)
      obtain ⟨h1, h2, h3, h4⟩ := hm m (List.mem_cons_self m ms)
      have ih := map_ToLower_of_spellsAnyCase table ms cs hms hrest
      have hhead : unicode.ToLower table c = m := by
        rcases hc with rfl | rfl
        · rw [unicode.ToLower_ascii table _ h1, h3]
        · rw [unicode.ToLower_ascii table _ h2, h4]
      simp [List.map_cons, hhead, ih]

theorem Contains_ToLower_of_containsAnyCase (table : Char → Char) (body : String)
    (h : containsAnyCase body "authorization failed") :
    strings.Contains (strings.ToLower table body) "authorization failed" = true := by
  obtain ⟨w, ⟨pre, post, hw⟩, hspell⟩ := h
  have hmap := map_ToLower_of_spellsAnyCase table _ w unicode.ToLower_marker hspell
  rw [strings.Contains_iff]
  refine ⟨pre.map (unicode.ToLower table), post.map (unicode.ToLower table), ?_⟩
  show _ = (body.data).map (unicode.ToLower table)
  rw [← hw, List.map_append, List.map_append, hmap]

namespace settings

theorem len_eq_zero_iff (s : String) : len s = 0 ↔ s = "" := by
  obtain ⟨data⟩ := s
  cases data with
  | nil => exact ⟨fun _ => rfl, fun _ => rfl⟩
  | cons c cs =>
      constructor
      · intro h
        have hpos := Char.utf8Size_pos c
        simp only [len, String.utf8ByteSize, String.utf8ByteSize.go] at h
        omega
      · intro h
        have hd := congrArg String.data h
        simp at hd

theorem isValid_eq (d : dd24) :
    d.isValid = if d.password = "" then some (.sentinel .ErrEmptyPassword) else none := by
  unfold dd24.isValid
  by_cases h : d.password = ""
  · have h0 : len d.password = 0 := (len_eq_zero_iff _).2 h
    rw [if_pos h, h0]
    rfl
  · have h0 : len d.password ≠ 0 := fun hc => h ((len_eq_zero_iff _).1 hc)
    simp [h, h0]

theorem NewDD24_empty (provider_ip : Option Bool) (domain host : String)
    (ipVersion : models.IPVersion) (m : Matcher) (password : Option String)
    (h : password = none ∨ password = some "") :
    NewDD24 (.object password provider_ip) domain host ipVersion m =
      (none, some (.sentinel .ErrEmptyPassword)) := by
  rcases h with rfl | rfl <;> simp [NewDD24, jsonUnmarshal, isValid_eq]

theorem NewDD24_nonempty (provider_ip : Option Bool) (domain host : String)
    (ipVersion : models.IPVersion) (m : Matcher) (p : String) (h : p ≠ "") :
    NewDD24 (.object (some p) provider_ip) domain host ipVersion m =
      (some { domain := domain, host := host, ipVersion := ipVersion, password := p,
              useProviderIP := provider_ip.getD false }, none) := by
  simp [NewDD24, jsonUnmarshal, isValid_eq, h]

end settings

/-! ## The claims -/

namespace settings

/-- C1: for every dd24 value, observed IP and answer with status 200 whose
body is not empty and, lower-cased, does not contain "authorization failed",
`Update` returns no IP and an error that wraps `ErrUnknownResponse`; the
answer is not taken for a success. -/
theorem dd24_Update_unknown_response (env : Deps) (d : dd24)
    (client : http.Request → http.RoundTrip) (ip : net.IP) (body : String)
    (hresp : client (d.buildRequest env ip) = .response 200 body)
    (hne : body ≠ "")
    (hmark : ¬ "authorization failed".data <:+: (strings.ToLower env.lowerCase body).data) :
    (d.Update env client ip).1 = none ∧
      ∃ e, (d.Update env client ip).2 = some e ∧ e.Is .ErrUnknownResponse = true := by
  have hc : strings.Contains (strings.ToLower env.lowerCase body) "authorization failed"
      = false := by
    rw [← Bool.not_eq_true, strings.Contains_iff]
    exact hmark
  rw [Update_response env d client ip 200 body hresp, classify_unknown env ip body hne hc]
  exact ⟨rfl, _, rfl, rfl⟩

theorem dd24_Update_unknown_response_witness :
    (dd24.Update exampleDeps ⟨"example.com", "sub", "ipv4", "pw", false⟩
        (fun _ => .response 200 "Good 1.2.3.4") (some [1, 2, 3, 4])).1 = none ∧
      ∃ e, (dd24.Update exampleDeps ⟨"example.com", "sub", "ipv4", "pw", false⟩
        (fun _ => .response 200 "Good 1.2.3.4") (some [1, 2, 3, 4])).2 = some e ∧
        e.Is .ErrUnknownResponse = true :=
  dd24_Update_unknown_response exampleDeps ⟨"example.com", "sub", "ipv4", "pw", false⟩
    (fun _ => .response 200 "Good 1.2.3.4") (some [1, 2, 3, 4]) "Good 1.2.3.4" rfl
    (by decide)
    (by rw [← strings.Contains_iff]; decide)

/-- C2: for every dd24 value, with the provider-IP flag set or not, and every
observed IP, an answer of status 200 with an empty body makes `Update`
return the observed IP it was given and a nil error. -/
theorem dd24_Update_empty_body (env : Deps) (d : dd24)
    (client : http.Request → http.RoundTrip) (ip : net.IP)
    (hresp : client (d.buildRequest env ip) = .response 200 "") :
    d.Update env client ip = (ip, none) := by
  rw [Update_response env d client ip 200 "" hresp, classify_empty]

theorem dd24_Update_empty_body_witness :
    dd24.Update exampleDeps ⟨"example.com", "@", "ipv4", "pw", true⟩
        (fun _ => .response 200 "") (some [10, 0, 0, 7]) = (some [10, 0, 0, 7], none) :=
  dd24_Update_empty_body exampleDeps ⟨"example.com", "@", "ipv4", "pw", true⟩
    (fun _ => .response 200 "") (some [10, 0, 0, 7]) rfl

/-- C4: for every status outside 200-299 and every body, the authentication
marker included, `Update` returns no IP and an error that wraps
`ErrBadHTTPStatus` and whose text contains the status code in decimal. -/
theorem dd24_Update_bad_status (env : Deps) (d : dd24)
    (client : http.Request → http.RoundTrip) (ip : net.IP) (StatusCode : Int)
    (body : String)
    (hresp : client (d.buildRequest env ip) = .response StatusCode body)
    (hrange : ¬ (200 ≤ StatusCode ∧ StatusCode ≤ 299)) :
    (d.Update env client ip).1 = none ∧
      ∃ e, (d.Update env client ip).2 = some e ∧ e.Is .ErrBadHTTPStatus = true ∧
        e.carries env (formatInt StatusCode) := by
  have hs : StatusCode ≠ 200 := by
    intro h
    exact hrange (by omega)
  rw [Update_response env d client ip StatusCode body hresp,
    classify_bad_status env ip StatusCode body hs]
  refine ⟨rfl, _, rfl, rfl, ?_⟩
  refine ⟨(env.errText .ErrBadHTTPStatus).data ++ ": ".data,
    ": ".data ++ (bodyDataToSingleLine body).data, ?_⟩
  simp [Error.Error, String.data_append]

theorem dd24_Update_bad_status_witness :
    (dd24.Update exampleDeps ⟨"example.com", "sub", "ipv4", "pw", false⟩
        (fun _ => .response 503 "authorization failed") (some [1, 2, 3, 4])).1 = none ∧
      ∃ e, (dd24.Update exampleDeps ⟨"example.com", "sub", "ipv4", "pw", false⟩
        (fun _ => .response 503 "authorization failed") (some [1, 2, 3, 4])).2 = some e ∧
        e.Is .ErrBadHTTPStatus = true ∧ e.carries exampleDeps (formatInt 503) :=
  dd24_Update_bad_status exampleDeps ⟨"example.com", "sub", "ipv4", "pw", false⟩
    (fun _ => .response 503 "authorization failed") (some [1, 2, 3, 4]) 503
    "authorization failed" rfl (by decide)

/-- C6, as the code has it: for a status in 200-299 and an empty body,
`Update` returns the observed IP with no error exactly when the status is
200; for the other statuses of the range it returns no IP and an error that
wraps `ErrBadHTTPStatus`. -/
theorem dd24_Update_empty_body_success_range (env : Deps) (d : dd24)
    (client : http.Request → http.RoundTrip) (ip : net.IP) (StatusCode : Int)
    (hresp : client (d.buildRequest env ip) = .response StatusCode "")
    (hlo : 200 ≤ StatusCode) (hhi : StatusCode ≤ 299) :
    (d.Update env client ip = (ip, none) ↔ StatusCode = 200) ∧
      (StatusCode ≠ 200 →
        (d.Update env client ip).1 = none ∧
          ∃ e, (d.Update env client ip).2 = some e ∧ e.Is .ErrBadHTTPStatus = true) := by
  rw [Update_response env d client ip StatusCode "" hresp]
  constructor
  · constructor
    · intro h
      by_contra hs
      rw [classify_bad_status env ip StatusCode "" hs] at h
      cases h
    · intro h
      subst h
      exact classify_empty env ip
  · intro hs
    rw [classify_bad_status env ip StatusCode "" hs]
    exact ⟨rfl, _, rfl, rfl⟩

theorem dd24_Update_empty_body_success_range_witness :
    (dd24.Update exampleDeps ⟨"example.com", "sub", "ipv4", "pw", false⟩
        (fun _ => .response 204 "") (some [1, 2, 3, 4]) = (some [1, 2, 3, 4], none)
        ↔ (204 : Int) = 200) ∧
      ((204 : Int) ≠ 200 →
        (dd24.Update exampleDeps ⟨"example.com", "sub", "ipv4", "pw", false⟩
          (fun _ => .response 204 "") (some [1, 2, 3, 4])).1 = none ∧
          ∃ e, (dd24.Update exampleDeps ⟨"example.com", "sub", "ipv4", "pw", false⟩
            (fun _ => .response 204 "") (some [1, 2, 3, 4])).2 = some e ∧
            e.Is .ErrBadHTTPStatus = true) :=
  dd24_Update_empty_body_success_range exampleDeps
    ⟨"example.com", "sub", "ipv4", "pw", false⟩
    (fun _ => .response 204 "") (some [1, 2, 3, 4]) 204 rfl (by decide) (by decide)

/-- C6, as stated, fails: status 204 is in 200-299, the body is empty, and
`Update` returns no IP and an error wrapping `ErrBadHTTPStatus`. -/
theorem dd24_Update_status_204_empty_body_fails :
    (200 : Int) ≤ 204 ∧ (204 : Int) ≤ 299 ∧
      dd24.Update exampleDeps ⟨"example.com", "sub", "ipv4", "pw", false⟩
        (fun _ => .response 204 "") (some [1, 2, 3, 4]) =
        (none, some (.wrapped .ErrBadHTTPStatus "204: ")) := by
  decide

/-- C3, as the code has it: for every answer of status 200 whose body
contains "authorization failed" in any letter case, `Update` returns no IP
and the package-level error `ErrAuth` itself, the same value whatever the
body: its text is the text of `ErrAuth`. -/
theorem dd24_Update_auth_failure (env : Deps) (d : dd24)
    (client : http.Request → http.RoundTrip) (ip : net.IP) (body : String)
    (hresp : client (d.buildRequest env ip) = .response 200 body)
    (hbody : containsAnyCase body "authorization failed") :
    d.Update env client ip = (none, some (.sentinel .ErrAuth)) ∧
      (Error.sentinel .ErrAuth).Is .ErrAuth = true ∧
      (Error.sentinel .ErrAuth).Error env = env.errText .ErrAuth := by
  rw [Update_response env d client ip 200 body hresp,
    classify_auth env ip body (Contains_ToLower_of_containsAnyCase env.lowerCase body hbody)]
  exact ⟨rfl, rfl, rfl⟩

theorem dd24_Update_auth_failure_witness :
    dd24.Update exampleDeps ⟨"example.com", "sub", "ipv4", "pw", false⟩
        (fun _ => .response 200 "Error: Authorization FAILED") (some [1, 2, 3, 4]) =
        (none, some (.sentinel .ErrAuth)) ∧
      (Error.sentinel .ErrAuth).Is .ErrAuth = true ∧
      (Error.sentinel .ErrAuth).Error exampleDeps = exampleDeps.errText .ErrAuth :=
  dd24_Update_auth_failure exampleDeps ⟨"example.com", "sub", "ipv4", "pw", false⟩
    (fun _ => .response 200 "Error: Authorization FAILED") (some [1, 2, 3, 4])
    "Error: Authorization FAILED" rfl
    ⟨"Authorization FAILED".data, ⟨"Error: ".data, [], rfl⟩, by decide⟩

/-- C3, as stated, fails: whatever the texts of the package-level errors
and the case tables, some body containing "authorization failed" is not
carried, lower-cased and on a single line, by the error `Update` returns
for it (the error is `ErrAuth` itself, and the body is longer than its
text). -/
theorem dd24_Update_auth_error_omits_body :
    ¬ ∃ env : Deps, ∀ body : String, containsAnyCase body "authorization failed" →
        ∃ e, (dd24.Update env ⟨"example.com", "sub", "ipv4", "pw", false⟩
            (fun _ => .response 200 body) (some [1, 2, 3, 4])).2 = some e ∧
          e.Is .ErrAuth = true ∧
          e.carries env (bodyDataToSingleLine (strings.ToLower env.lowerCase body)) := by
  rintro ⟨env, h⟩
  have hbody : containsAnyCase
      ⟨"authorization failed".data ++
        List.replicate ((env.errText .ErrAuth).data.length + 1) (Char.ofNat 120)⟩
      "authorization failed" :=
    ⟨"authorization failed".data, ⟨[], _, rfl⟩, by decide⟩
  obtain ⟨e, he, -, hcarry⟩ := h _ hbody
  rw [Update_response env _ _ _ 200 _ rfl,
    classify_auth env _ _ (Contains_ToLower_of_containsAnyCase env.lowerCase _ hbody)] at he
  have hE : e = .sentinel .ErrAuth := by
    simp only [Option.some.injEq] at he
    exact he.symm
  subst hE
  have hlen := List.IsInfix.length_le hcarry
  have hx : unicode.ToLower env.lowerCase (Char.ofNat 120) = Char.ofNat 120 := rfl
  simp only [bodyDataToSingleLine, strings.ToLower, List.map_append, List.map_replicate,
    List.filter_append, List.length_append, hx, Error.Error] at hlen
  have hkeep : (List.filter (fun c => c != Char.ofNat 10 && c != Char.ofNat 13)
      (List.replicate ((env.errText .ErrAuth).data.length + 1) (Char.ofNat 120))).length
      = (env.errText .ErrAuth).data.length + 1 := by
    rw [List.filter_replicate]
    simp
  omega

/-- C5: for every domain, host and IP version, `NewDD24` on a well-formed
payload returns no Settings and `ErrEmptyPassword` exactly when the
"password" field is absent or the empty string, and for a non-empty
password it returns a Settings whose `Domain()`, `Host()` and `IPVersion()`
are the arguments given, with a nil error. -/
theorem NewDD24_password (password : Option String) (provider_ip : Option Bool)
    (domain host : String) (ipVersion : models.IPVersion) (m : Matcher) :
    (((NewDD24 (.object password provider_ip) domain host ipVersion m).1 = none ∧
        (NewDD24 (.object password provider_ip) domain host ipVersion m).2 =
          some (.sentinel .ErrEmptyPassword)) ↔
      (password = none ∨ password = some "")) ∧
    (∀ p : String, password = some p → p ≠ "" →
      ∃ s : dd24, NewDD24 (.object password provider_ip) domain host ipVersion m = (some s, none) ∧
        s.Domain = domain ∧ s.Host = host ∧ s.IPVersion = ipVersion) := by
  constructor
  · constructor
    · intro h
      cases password with
      | none => exact Or.inl rfl
      | some p =>
          by_cases hp : p = ""
          · exact Or.inr (by rw [hp])
          · rw [NewDD24_nonempty provider_ip domain host ipVersion m p hp] at h
            exact absurd h.1 (by simp)
    · intro h
      rw [NewDD24_empty provider_ip domain host ipVersion m password h]
      exact ⟨rfl, rfl⟩
  · intro p hp hne
    subst hp
    exact ⟨_, NewDD24_nonempty provider_ip domain host ipVersion m p hne, rfl, rfl, rfl⟩

/-- C7 fails on the code: for status 200 and the body "Foo\nBar", whatever
the dependencies, the dd24 value and the IP, `Update` returns an error
wrapping `ErrUnknownResponse` whose text carries the lower-cased body with
its line feed: the text is not a single line. -/
theorem dd24_Update_unknown_response_keeps_newline (env : Deps) (d : dd24) (ip : net.IP) :
    d.Update env (fun _ => .response 200 "Foo\nBar") ip =
        (none, some (.wrapped .ErrUnknownResponse "foo\nbar")) ∧
      (Error.wrapped .ErrUnknownResponse "foo\nbar").carries env "foo\nbar" ∧
      ¬ singleLine ((Error.wrapped .ErrUnknownResponse "foo\nbar").Error env) := by
  refine ⟨rfl, ⟨(env.errText .ErrUnknownResponse).data ++ ": ".data, [], ?_⟩, ?_⟩
  · simp [Error.Error, String.data_append]
  · intro h
    apply h.1
    simp [Error.Error, String.data_append]

/-- C10 fails on the code: for every dd24 value and IP the "hostname"
parameter of the request built is "auto" or the text of the IP, never taken
from `BuildDomainName()`; for domain "example.com", host "sub" and IP
1.2.3.4 the request is a GET to https://dynamicdns.key-systems.net/update.php
with hostname "1.2.3.4" and password "pw", while `BuildDomainName()` is
"sub.example.com". -/
theorem dd24_Update_request_hostname_overwritten :
    (∀ (env : Deps) (d : dd24) (ip : net.IP),
      (d.buildRequest env ip).URL.RawQuery.Get "hostname" =
        if d.useProviderIP then "auto" else env.ipString ip) ∧
    dd24.buildRequest exampleDeps ⟨"example.com", "sub", "ipv4", "pw", false⟩
        (some [1, 2, 3, 4]) =
      { Method := "GET"
        URL :=
          { Scheme := "https"
            Host := "dynamicdns.key-systems.net"
            Path := "/update.php"
            RawQuery := [("hostname", ["1.2.3.4"]), ("password", ["pw"])] }
        Header := [("User-Agent", "ddns-updater")] } ∧
    dd24.BuildDomainName ⟨"example.com", "sub", "ipv4", "pw", false⟩ = "sub.example.com" ∧
    (dd24.buildRequest exampleDeps ⟨"example.com", "sub", "ipv4", "pw", false⟩
        (some [1, 2, 3, 4])).URL.RawQuery.Get "hostname" ≠
      dd24.BuildDomainName ⟨"example.com", "sub", "ipv4", "pw", false⟩ := by
  refine ⟨?_, by decide, by decide, by decide⟩
  intro env d ip
  cases hflag : d.useProviderIP <;>
    simp [dd24.buildRequest, dd24.setHeaders, setUserAgent, url.Values.Set, url.Values.Get,
      hflag, List.find?]

/-- C9 fails on the code: the identifier `dd24.String` names, `DD24`, is
not declared in the const block, so `String()` has no provider to present a
dd24 value under, while every member of `ProviderChoices()` is the value of
a declared constant, of another name. -/
theorem dd24_provider_constant_undeclared :
    dd24.providerConstant ∉ constants.declared.map Prod.fst ∧
      constants.resolve dd24.providerConstant = none ∧
      (∀ (env : Deps) (d : dd24), d.String env = none) ∧
      (∀ p ∈ constants.ProviderChoices, ∃ name, name ≠ dd24.providerConstant ∧
        constants.resolve name = some p) := by
  have hres : constants.resolve dd24.providerConstant = none := by decide
  refine ⟨by decide, hres, fun env d => by simp [dd24.String, hres], ?_⟩
  have h : ∀ p ∈ constants.ProviderChoices,
      ∃ entry ∈ constants.declared, (entry.1 ≠ dd24.providerConstant ∧
        constants.resolve entry.1 = some p) := by
    decide
  intro p hp
  obtain ⟨entry, -, h1, h2⟩ := h p hp
  exact ⟨entry.1, h1, h2⟩

end settings

namespace constants

/-- C8: `ProviderChoices()` is a closed enumeration: its elements are
pairwise distinct, each is a lowercase string, it has 26 of them, and its
elements are the values of the constants the const block declares, all of
them and no other. -/
theorem ProviderChoices_closed_enumeration :
    ProviderChoices.Nodup ∧
      (∀ p ∈ ProviderChoices, isLowercase p = true) ∧
      ProviderChoices.length = 26 ∧ declared.length = 26 ∧
      (declared.map Prod.fst).Nodup ∧
      (∀ p : models.Provider, p ∈ ProviderChoices ↔ p ∈ declared.map Prod.snd) := by
  have h1 : ∀ p ∈ ProviderChoices, p ∈ declared.map Prod.snd := by decide
  have h2 : ∀ p ∈ declared.map Prod.snd, p ∈ ProviderChoices := by decide
  exact ⟨by decide, by decide, rfl, rfl, by decide, fun p => ⟨h1 p, h2 p⟩⟩

end constants
